import Mathlib

/-!
# op-bot persistence layer (`db/db.go`)

A shallow embedding of the `Mongo` store of op-bot: the two collections
(`users`, `chapters`), the five operations of `db.go` and `InitDatabase`,
over a small model of the document database they talk to.

* Documents are ordered lists of `(key, value)` elements, collections are
  lists of documents in natural order.
* The requests of the driver that `db.go` issues (`Find`, `FindOne`,
  `InsertOne`, `DeleteOne`, `UpdateOne`, cursor iteration, `Decode`) are
  modelled as functions on collections.  Each request can fail; which ones
  do is given by a `Faults` plan.  A failed request has no effect on the
  stored data.
* `int64` values are integers; the only arithmetic of the module
  (`chapterNumber + 1`) is wrapped to 64 bits by `wrapInt64`.
* Stored values are integers of both widths, strings, object ids and null;
  floating-point numbers, arrays and embedded documents are left out.
-/

namespace OpBot

/-! ## BSON values and documents -/

/-- BSON values that occur in the two collections: 64-bit and 32-bit integers,
strings, object ids (the `_id` the driver adds) and null. -/
inductive BVal where
  | int64 (v : Int)
  | int32 (v : Int)
  | str (s : String)
  | objectID (n : Nat)
  | null
  deriving DecidableEq, Repr

/-- A BSON document (`bson.D`): an ordered list of elements. -/
abbrev Doc := List (String × BVal)

/-- The numeric value of a BSON value, when it is a number. -/
def BVal.num? : BVal → Option Int
  | .int64 v => some v
  | .int32 v => some v
  | _ => none

/-- Equality of a query value with a stored value: numbers compare by value
across the integer types, everything else compares by type and value. -/
def valueEq (q stored : BVal) : Bool :=
  match q.num?, stored.num? with
  | some a, some b => decide (a = b)
  | none, none => decide (q = stored)
  | _, _ => false

/-- One element `{k: q}` of an equality filter against a document.  A missing
field matches only the query value null. -/
def fieldMatches (k : String) (q : BVal) (d : Doc) : Bool :=
  match d.lookup k with
  | some v => valueEq q v
  | none => decide (q = BVal.null)

/-- A filter document matches when each of its elements does. -/
def matchesFilter (filter : Doc) (d : Doc) : Bool :=
  filter.all (fun e => fieldMatches e.1 e.2 d)

/-- The filter `bson.D{{}}` of `GetUsers` and `GetLatestChapter`: a document
with one zero element, key `""` and value nil. -/
def emptyElemFilter : Doc := [("", BVal.null)]

/-- Sets key `k` to `v`: replaces the value of an existing key in place,
appends the element otherwise. -/
def setField (k : String) (v : BVal) : Doc → Doc
  | [] => [(k, v)]
  | (k', v') :: rest =>
    if k' = k then (k, v) :: rest else (k', v') :: setField k v rest

/-- Writes all elements of `fields` into `d` (the `$set` update operator, and
the way a document is decoded into an existing `bson.M`). -/
def setFields (fields : Doc) (d : Doc) : Doc :=
  fields.foldl (fun acc e => setField e.1 e.2 acc) d

/-- The call `Decode(&result)` with `result` a `bson.M`: a nil map is allocated, an
existing map is kept and the elements of the document are stored into it. -/
def decodeMap (result : Option Doc) (d : Doc) : Option Doc :=
  some (setFields d (result.getD []))

/-! ## Collections and driver requests -/

/-- The database `op-bot-data`: its two collections and the counter from
which fresh object ids are drawn. -/
structure DB where
  users : List Doc
  chapters : List Doc
  nextId : Nat
  deriving DecidableEq, Repr

/-- Documents returned by `Find`, in natural order. -/
def find (filter : Doc) (coll : List Doc) : List Doc :=
  coll.filter (matchesFilter filter)

/-- The document returned by `FindOne`: the first match, if any. -/
def findOne (filter : Doc) (coll : List Doc) : Option Doc :=
  coll.find? (matchesFilter filter)

/-- The request `InsertOne`: the driver puts a fresh `_id` in front of a
document that has none, and the document is stored at the end. -/
def insertOne (oid : Nat) (d : Doc) (coll : List Doc) : List Doc :=
  coll ++ [if (d.lookup "_id").isSome then d else ("_id", BVal.objectID oid) :: d]

/-- The request `DeleteOne`: removes the first matching document. -/
def deleteOne (filter : Doc) (coll : List Doc) : List Doc :=
  coll.eraseP (matchesFilter filter)

/-- The request `UpdateOne` with a `$set` update: rewrites the first matching
document, leaves the collection alone when none matches. -/
def updateOne (filter : Doc) (setDoc : Doc) : List Doc → List Doc
  | [] => []
  | d :: rest =>
    if matchesFilter filter d then setFields setDoc d :: rest
    else d :: updateOne filter setDoc rest

/-! ## Errors, outcomes, faults -/

/-- Modelled from the spec: the error values of package `utils` (not part of
the sources at hand), one constructor per error kind of the taxonomy, and
`NoLatestChapter` for the error `GetLatestChapter` builds itself by wrapping
the driver's `ErrNoDocuments`. -/
inductive Err where
  | ErrorDatabaseConnection
  | ErrorDatabasePing
  | ErrorMongoFind
  | ErrorMongoCursor
  | ErrorGenericMongoCursor
  | ErrorMongoInsertOne
  | ErrorMongoDeleteOne
  | ErrorMongoFindOne
  | ErrorMongoUpdateOne
  | NoLatestChapter
  deriving DecidableEq, Repr

/-- What a call does: return a value with a nil error, return an error, or
abort with a run-time panic. -/
inductive Outcome (α : Type) where
  | ok (a : α)
  | error (e : Err)
  | panic
  deriving DecidableEq, Repr

/-- Which requests of the driver fail during a call. -/
structure Faults where
  /-- The request `mongo.Connect` fails. -/
  connect : Bool
  /-- The request `Ping` fails. -/
  ping : Bool
  /-- The request `Find` fails. -/
  find : Bool
  /-- The index of the document of the cursor on which `Decode` fails. -/
  cursorDecode : Option Nat
  /-- The number of documents delivered before the cursor breaks off. -/
  cursorBreak : Option Nat
  /-- The request `FindOne` fails (with an error other than no-documents). -/
  findOne : Bool
  /-- The request `InsertOne` fails. -/
  insertOne : Bool
  /-- The request `DeleteOne` fails. -/
  deleteOne : Bool
  /-- The request `UpdateOne` fails. -/
  updateOne : Bool
  deriving DecidableEq, Repr

/-- No request fails. -/
def noFaults : Faults :=
  ⟨false, false, false, none, none, false, false, false, false⟩

/-- Some request that the fault plan names fails. -/
def Faults.any (f : Faults) : Bool :=
  f.connect || f.ping || f.find || f.cursorDecode.isSome || f.cursorBreak.isSome
    || f.findOne || f.insertOne || f.deleteOne || f.updateOne

/-! ## 64-bit integers -/

/-- The range of `int64`. -/
def isInt64 (n : Int) : Prop := -(2 ^ 63) ≤ n ∧ n < 2 ^ 63

instance (n : Int) : Decidable (isInt64 n) := by
  unfold isInt64; infer_instance

/-- The largest `int64`. -/
def maxInt64 : Int := 2 ^ 63 - 1

/-- The smallest `int64`. -/
def minInt64 : Int := -(2 ^ 63)

/-- Two's complement wrap-around of an integer to 64 bits. -/
def wrapInt64 (x : Int) : Int := (x + 2 ^ 63) % 2 ^ 64 - 2 ^ 63

/-! ## The store -/

/-- The field `DbInfo` of the store handle. -/
structure DatabaseInfo where
  DatabaseName : String
  deriving DecidableEq, Repr

/-- The store handle. -/
structure Mongo where
  DbInfo : DatabaseInfo
  deriving DecidableEq, Repr

/-- The constant `dbName`. -/
def dbName : String := "op-bot-data"

/-- The function `InitDatabase`: connect, then ping; the handle is bound to the
fixed database name. -/
def InitDatabase (f : Faults) : Outcome Mongo :=
  if f.connect then Outcome.error Err.ErrorDatabaseConnection
  else if f.ping then Outcome.error Err.ErrorDatabasePing
  else Outcome.ok ⟨⟨dbName⟩⟩

/-- The loop `for cursor.Next { cursor.Decode(&result) }` of `GetUsers`: every
document is decoded into the same map `result`; `i` is the index of the
document at hand. -/
def cursorLoop (f : Faults) : Nat → List Doc → Option Doc → Except Err (Option Doc)
  | _, [], result => Except.ok result
  | i, d :: ds, result =>
    if f.cursorDecode = some i then Except.error Err.ErrorMongoCursor
    else cursorLoop f (i + 1) ds (decodeMap result d)

/-- The loop `for k, v := range result` of `GetUsers`: appends `v.(int64)` for
the key `chat_id`; the type assertion panics on any other dynamic type. -/
def collectChatIds : List (String × BVal) → List Int → Outcome (List Int)
  | [], chatIds => Outcome.ok chatIds
  | (k, v) :: rest, chatIds =>
    if k = "chat_id" then
      match v with
      | BVal.int64 x => collectChatIds rest (chatIds ++ [x])
      | _ => Outcome.panic
    else collectChatIds rest chatIds

/-- The method `GetUsers`: `Find` with the filter `bson.D{{}}`, the cursor loop
into one map, the cursor error check, then the loop over the keys of the map. -/
def GetUsers (f : Faults) (db : DB) : Outcome (List Int) :=
  if f.find then Outcome.error Err.ErrorMongoFind
  else
    let batch := find emptyElemFilter db.users
    let delivered :=
      match f.cursorBreak with
      | some k => batch.take k
      | none => batch
    match cursorLoop f 0 delivered none with
    | Except.error e => Outcome.error e
    | Except.ok result =>
      if f.cursorBreak.isSome then Outcome.error Err.ErrorGenericMongoCursor
      else collectChatIds (result.getD []) []

/-- The method `AddUser`.  The error of `FindOne(...).Decode(&result)` is dropped: after a
failed lookup `result` is still nil, as it is when no document matches. -/
def AddUser (f : Faults) (chatId : Int) (db : DB) : Outcome Unit × DB :=
  let result : Option Doc :=
    if f.findOne then none
    else
      match findOne [("chat_id", BVal.int64 chatId)] db.users with
      | some d => decodeMap none d
      | none => none
  if result.isSome then (Outcome.ok (), db)
  else if f.insertOne then (Outcome.error Err.ErrorMongoInsertOne, db)
  else
    (Outcome.ok (),
      { db with
        users := insertOne db.nextId [("chat_id", BVal.int64 chatId)] db.users
        nextId := db.nextId + 1 })

/-- The method `RemoveUser`: one `DeleteOne` with the filter `{chat_id: chatId}`. -/
def RemoveUser (f : Faults) (chatId : Int) (db : DB) : Outcome Unit × DB :=
  if f.deleteOne then (Outcome.error Err.ErrorMongoDeleteOne, db)
  else
    (Outcome.ok (),
      { db with users := deleteOne [("chat_id", BVal.int64 chatId)] db.users })

/-- Modelled from the spec: the record `utils.Chapter` (not part of the sources
at hand), with the fields `chapter_number` (int64) and `latest_url`
(string) of the documents of `chapters`. -/
structure Chapter where
  chapter_number : Int
  latest_url : String
  deriving DecidableEq, Repr

/-- Decoding of a BSON value into an `int64` field: both integer types are
accepted, null gives the zero value, a string or an object id is a decode
error. -/
def decodeInt64 : BVal → Option Int
  | BVal.int64 x => some x
  | BVal.int32 x => some x
  | BVal.null => some 0
  | BVal.str _ => none
  | BVal.objectID _ => none

/-- One hexadecimal digit, in lower case. -/
def hexDigit (d : Nat) : Char :=
  if d < 10 then Char.ofNat (48 + d) else Char.ofNat (87 + d)

/-- The last `k` hexadecimal digits of `n`, most significant first. -/
def hexDigits : Nat → Nat → List Char
  | 0, _ => []
  | k + 1, n => hexDigits k (n / 16) ++ [hexDigit (n % 16)]

/-- The text `Hex()` of an object id: its twelve bytes as 24 hexadecimal digits. -/
def objectIDHex (n : Nat) : String := String.mk (hexDigits 24 n)

/-- Decoding of a BSON value into a `string` field: strings are accepted, an
object id gives its hexadecimal text, null gives the zero value, an integer is
a decode error. -/
def decodeString : BVal → Option String
  | BVal.str s => some s
  | BVal.objectID n => some (objectIDHex n)
  | BVal.null => some ""
  | BVal.int64 _ => none
  | BVal.int32 _ => none

/-- Lower case of one character as `strings.ToLower` computes it, as far as the
result is an ASCII character: the letters `A` to `Z`, the dotted capital I
(U+0130, to `i`) and the Kelvin sign (U+212A, to `k`).  Every other character
has a lower case outside ASCII, or is its own, and is left as it is. -/
def lowerChar (c : Char) : Char :=
  if 65 ≤ c.toNat ∧ c.toNat ≤ 90 then Char.ofNat (c.toNat + 32)
  else if c.toNat = 304 then Char.ofNat 105
  else if c.toNat = 8490 then Char.ofNat 107
  else c

/-- Lower case of a key. -/
def lowerKey (k : String) : String := String.mk (k.data.map lowerChar)

/-- The struct decoder's search of the field for the key `k`: the key as it is,
and when no field has that name, the key in lower case. -/
def keyNames (field k : String) : Bool :=
  decide (k = field) || decide (lowerKey k = field)

/-- Decoding of a document into a `Chapter`, element by element: the keys that
name `chapter_number` and `latest_url` fill the fields, in the order of the
document, unknown keys are skipped. -/
def decodeChapter : Doc → Chapter → Option Chapter
  | [], c => some c
  | (k, v) :: rest, c =>
    if keyNames "chapter_number" k then
      match decodeInt64 v with
      | some x => decodeChapter rest { c with chapter_number := x }
      | none => none
    else if keyNames "latest_url" k then
      match decodeString v with
      | some s => decodeChapter rest { c with latest_url := s }
      | none => none
    else decodeChapter rest c

/-- The method `GetLatestChapter`: `FindOne` with the filter `bson.D{{}}` decoded
into a `Chapter`; the no-documents error is wrapped, any other error becomes
`ErrorMongoFindOne`. -/
def GetLatestChapter (f : Faults) (db : DB) : Outcome Chapter :=
  if f.findOne then Outcome.error Err.ErrorMongoFindOne
  else
    match findOne emptyElemFilter db.chapters with
    | none => Outcome.error Err.NoLatestChapter
    | some d =>
      match decodeChapter d ⟨0, ""⟩ with
      | none => Outcome.error Err.ErrorMongoFindOne
      | some chapter => Outcome.ok chapter

/-- The method `UpdateLatestChapter`: one `UpdateOne` that selects by the given
number and sets the number plus one and the url; `chapterNumber + 1` is an
`int64` addition. -/
def UpdateLatestChapter (f : Faults) (chapterNumber : Int) (url : String) (db : DB) :
    Outcome Unit × DB :=
  if f.updateOne then (Outcome.error Err.ErrorMongoUpdateOne, db)
  else
    (Outcome.ok (),
      { db with
        chapters :=
          updateOne [("chapter_number", BVal.int64 chapterNumber)]
            [("chapter_number", BVal.int64 (wrapInt64 (chapterNumber + 1))),
             ("latest_url", BVal.str url)]
            db.chapters })

/-! ## Calls of the store as data -/

/-- A call of one of the five operations, with its arguments. -/
inductive Op where
  | getUsers
  | addUser (chatId : Int)
  | removeUser (chatId : Int)
  | getLatestChapter
  | updateLatestChapter (chapterNumber : Int) (url : String)
  deriving DecidableEq, Repr

/-- The database after a call. -/
def Op.run (f : Faults) (db : DB) : Op → DB
  | .getUsers => db
  | .addUser chatId => (AddUser f chatId db).2
  | .removeUser chatId => (RemoveUser f chatId db).2
  | .getLatestChapter => db
  | .updateLatestChapter n url => (UpdateLatestChapter f n url db).2

/-- The arguments of a call are `int64` values. -/
def Op.wellFormed : Op → Prop
  | .getUsers => True
  | .addUser chatId => isInt64 chatId
  | .removeUser chatId => isInt64 chatId
  | .getLatestChapter => True
  | .updateLatestChapter n _ => isInt64 n

instance (op : Op) : Decidable op.wellFormed := by
  cases op <;> simp only [Op.wellFormed] <;> infer_instance

/-- The numeric `chapter_number` of the first document of `chapters`. -/
def storedChapterNumber (db : DB) : Option Int :=
  match db.chapters with
  | [] => none
  | d :: _ => (d.lookup "chapter_number").bind BVal.num?

/-- A subscriber document as `AddUser` stores it. -/
def userDoc (oid : Nat) (chatId : Int) : Doc :=
  [("_id", BVal.objectID oid), ("chat_id", BVal.int64 chatId)]

/-- A chapter document of the shape `{chapter_number, latest_url}`. -/
def chapterDoc (oid : Nat) (n : Int) (url : String) : Doc :=
  [("_id", BVal.objectID oid), ("chapter_number", BVal.int64 n), ("latest_url", BVal.str url)]

/-- A chapter document that carries a field with the empty name. -/
def emptyNamedDoc : Doc :=
  [("_id", BVal.objectID 0), ("", BVal.int64 1), ("chapter_number", BVal.int64 5),
   ("latest_url", BVal.str "a")]

/-- Number of documents of a collection selected by the filter `{chat_id: id}`. -/
def countChatId (chatId : Int) (coll : List Doc) : Nat :=
  coll.countP (matchesFilter [("chat_id", BVal.int64 chatId)])

/-! ## Lemmas on documents and requests -/

/-- After `setField k v` the key `k` holds `v`. -/
theorem lookup_setField_same (k : String) (v : BVal) (d : Doc) :
    (setField k v d).lookup k = some v := by
  induction d with
  | nil => simp [setField, List.lookup]
  | cons e rest ih =>
    obtain ⟨k', v'⟩ := e
    by_cases h : k' = k
    · simp [setField, h, List.lookup]
    · have h' : (k == k') = false := by
        simp only [beq_eq_false_iff_ne, ne_eq]; exact fun e => h e.symm
      simp [setField, h, List.lookup, h', ih]

/-- The lookup of any other key is untouched by `setField`. -/
theorem lookup_setField_ne (k k₀ : String) (v : BVal) (d : Doc) (hne : k₀ ≠ k) :
    (setField k v d).lookup k₀ = d.lookup k₀ := by
  induction d with
  | nil =>
    have h' : (k₀ == k) = false := by simpa using hne
    simp [setField, List.lookup, h']
  | cons e rest ih =>
    obtain ⟨k', v'⟩ := e
    by_cases h : k' = k
    · subst h
      have h' : (k₀ == k') = false := by simpa using hne
      simp [setField, List.lookup, h']
    · simp only [setField, h, if_false, List.lookup]
      cases hk : (k₀ == k') <;> simp [ih]

/-- The filter `{key: int64 n}` selects a document exactly when the numeric
value of its field `key` is `n`. -/
theorem matchesFilter_int64 (key : String) (n : Int) (d : Doc) :
    matchesFilter [(key, BVal.int64 n)] d = true ↔
      (d.lookup key).bind BVal.num? = some n := by
  simp only [matchesFilter, List.all_cons, List.all_nil, Bool.and_true, fieldMatches]
  cases h : d.lookup key with
  | none => simp
  | some v =>
    cases v <;> simp [valueEq, BVal.num?, eq_comm]

/-- Without a matching document `UpdateOne` changes nothing. -/
theorem updateOne_of_no_match (filter setDoc : Doc) (coll : List Doc)
    (h : ∀ d ∈ coll, matchesFilter filter d = false) :
    updateOne filter setDoc coll = coll := by
  induction coll with
  | nil => rfl
  | cons d rest ih =>
    have hd := h d (List.mem_cons_self _ _)
    simp only [updateOne, hd, Bool.false_eq_true, if_false]
    rw [ih (fun x hx => h x (List.mem_cons_of_mem _ hx))]

/-- Erasing the first match lowers the number of matches by one, if there is one. -/
theorem countP_eraseP_self (p : Doc → Bool) (l : List Doc) :
    (l.eraseP p).countP p = l.countP p - min 1 (l.countP p) := by
  induction l with
  | nil => simp
  | cons a l ih =>
    by_cases h : p a = true
    · simp [List.eraseP_cons, h, List.countP_cons]
    · simp only [Bool.not_eq_true] at h
      simp [List.eraseP_cons, h, List.countP_cons, ih]

/-- Erasing the first match shortens the list by one, if there is a match. -/
theorem length_eraseP_add (p : Doc → Bool) (l : List Doc) :
    (l.eraseP p).length + min 1 (l.countP p) = l.length := by
  induction l with
  | nil => simp
  | cons a l ih =>
    by_cases h : p a = true
    · simp [List.eraseP_cons, h, List.countP_cons]
    · simp only [Bool.not_eq_true] at h
      simp [List.eraseP_cons, h, List.countP_cons]
      omega

/-- Erasing the first match leaves the multiplicity of every non-matching element. -/
theorem count_eraseP_of_not (p : Doc → Bool) (l : List Doc) (d : Doc) (hd : p d = false) :
    (l.eraseP p).count d = l.count d := by
  induction l with
  | nil => simp
  | cons a l ih =>
    by_cases h : p a = true
    · have hne : a ≠ d := by
        intro e; subst e; rw [h] at hd; exact Bool.noConfusion hd
      simp [List.eraseP_cons, h, List.count_cons, hne]
    · simp only [Bool.not_eq_true] at h
      simp [List.eraseP_cons, h, List.count_cons, ih]

/-! ## `GetUsers` -/

/-- The keys after `setField k v`: the old ones and `k`. -/
theorem keys_setField (k : String) (v : BVal) (d : Doc) :
    ∀ k₀, k₀ ∈ (setField k v d).map Prod.fst ↔ k₀ = k ∨ k₀ ∈ d.map Prod.fst := by
  induction d with
  | nil => intro k₀; simp [setField]
  | cons e rest ih =>
    obtain ⟨k', v'⟩ := e
    intro k₀
    by_cases h : k' = k
    · subst h; simp [setField]
    · simp only [setField, h, if_false, List.map_cons, List.mem_cons, ih k₀]
      tauto

/-- The function `setField` keeps keys distinct. -/
theorem nodup_keys_setField (k : String) (v : BVal) (d : Doc)
    (hd : (d.map Prod.fst).Nodup) : ((setField k v d).map Prod.fst).Nodup := by
  induction d with
  | nil => simp [setField]
  | cons e rest ih =>
    obtain ⟨k', v'⟩ := e
    simp only [List.map_cons, List.nodup_cons] at hd
    by_cases h : k' = k
    · subst h
      simpa [setField] using hd
    · simp only [setField, h, if_false, List.map_cons, List.nodup_cons]
      refine ⟨?_, ih hd.2⟩
      rw [keys_setField]
      rintro (e | hmem)
      · exact h e
      · exact hd.1 hmem

/-- The function `setFields` keeps keys distinct. -/
theorem nodup_keys_setFields (fields d : Doc) (hd : (d.map Prod.fst).Nodup) :
    ((setFields fields d).map Prod.fst).Nodup := by
  unfold setFields
  induction fields generalizing d with
  | nil => simpa using hd
  | cons e rest ih =>
    simp only [List.foldl_cons]
    exact ih _ (nodup_keys_setField _ _ _ hd)

/-- The loop over a map without the key `chat_id` appends nothing. -/
theorem collectChatIds_of_not_mem (d : Doc) (chatIds : List Int)
    (h : "chat_id" ∉ d.map Prod.fst) : collectChatIds d chatIds = Outcome.ok chatIds := by
  induction d generalizing chatIds with
  | nil => rfl
  | cons e rest ih =>
    obtain ⟨k, v⟩ := e
    simp only [List.map_cons, List.mem_cons, not_or] at h
    have hk : ¬ k = "chat_id" := fun e => h.1 e.symm
    simp only [collectChatIds, hk, if_false]
    exact ih chatIds h.2

/-- The loop over a map with distinct keys appends at most one id. -/
theorem collectChatIds_length (d : Doc) (chatIds l : List Int)
    (hd : (d.map Prod.fst).Nodup) (h : collectChatIds d chatIds = Outcome.ok l) :
    l.length ≤ chatIds.length + 1 := by
  induction d generalizing chatIds with
  | nil =>
    simp only [collectChatIds, Outcome.ok.injEq] at h
    subst h; omega
  | cons e rest ih =>
    obtain ⟨k, v⟩ := e
    simp only [List.map_cons, List.nodup_cons] at hd
    by_cases hk : k = "chat_id"
    · subst hk
      cases v with
      | int64 x =>
        simp only [collectChatIds, if_true] at h
        rw [collectChatIds_of_not_mem rest _ hd.1] at h
        simp only [Outcome.ok.injEq] at h
        subst h; simp
      | int32 x => simp [collectChatIds] at h
      | str s => simp [collectChatIds] at h
      | objectID n => simp [collectChatIds] at h
      | null => simp [collectChatIds] at h
    · simp only [collectChatIds, hk, if_false] at h
      exact ih chatIds hd.2 h

/-- The map left by the cursor loop has distinct keys. -/
theorem cursorLoop_nodup (f : Faults) (docs : List Doc) (i : Nat) (result r : Option Doc)
    (hres : ∀ m, result = some m → (m.map Prod.fst).Nodup)
    (h : cursorLoop f i docs result = Except.ok r) :
    ∀ m, r = some m → (m.map Prod.fst).Nodup := by
  induction docs generalizing i result with
  | nil =>
    simp only [cursorLoop, Except.ok.injEq] at h
    subst h; exact hres
  | cons d ds ih =>
    simp only [cursorLoop] at h
    split_ifs at h
    refine ih (i + 1) (decodeMap result d) ?_ h
    intro m hm
    simp only [decodeMap, Option.some.injEq] at hm
    subst hm
    apply nodup_keys_setFields
    cases result with
    | none => simp
    | some m₀ => simpa using hres m₀ rfl

/-- Whatever the collection and the faults, a list returned by `GetUsers` has
at most one element. -/
theorem GetUsers_length_le_one (f : Faults) (db : DB) (l : List Int)
    (h : GetUsers f db = Outcome.ok l) : l.length ≤ 1 := by
  unfold GetUsers at h
  by_cases hfind : f.find = true
  · simp [hfind] at h
  · simp only [hfind, if_false] at h
    generalize (match f.cursorBreak with
      | some k => List.take k (find emptyElemFilter db.users)
      | none => find emptyElemFilter db.users) = delivered at h
    cases hloop : cursorLoop f 0 delivered none with
    | error e => simp [hloop] at h
    | ok result =>
      simp only [hloop] at h
      by_cases hb : f.cursorBreak.isSome = true
      · simp [hb] at h
      · simp only [hb, if_false] at h
        have hnd := cursorLoop_nodup f _ 0 none result (by simp) hloop
        have hnd' : ((result.getD []).map Prod.fst).Nodup := by
          cases result with
          | none => simp
          | some m => simpa using hnd m rfl
        simpa using collectChatIds_length _ [] l hnd' h

/-- Decoding a subscriber document into a nil map, or into a map holding an
earlier subscriber document, leaves exactly the new document. -/
theorem decodeMap_userDoc (r : Option Doc) (oid : Nat) (chatId : Int)
    (hr : r = none ∨ ∃ o c, r = some (userDoc o c)) :
    decodeMap r (userDoc oid chatId) = some (userDoc oid chatId) := by
  rcases hr with rfl | ⟨o, c, rfl⟩ <;>
    simp [decodeMap, userDoc, setFields, setField]

/-- Over subscriber documents the cursor loop ends with the last one in `result`. -/
theorem cursorLoop_userDocs (ids : List (Nat × Int)) (i : Nat) (r : Option Doc)
    (hr : r = none ∨ ∃ o c, r = some (userDoc o c)) :
    cursorLoop noFaults i (ids.map fun p => userDoc p.1 p.2) r
      = Except.ok (match ids.getLast? with
          | none => r
          | some p => some (userDoc p.1 p.2)) := by
  induction ids generalizing i r with
  | nil => simp [cursorLoop]
  | cons p rest ih =>
    simp only [List.map_cons, cursorLoop, noFaults]
    rw [if_neg (by simp), decodeMap_userDoc r p.1 p.2 hr]
    have := ih (i + 1) (some (userDoc p.1 p.2)) (Or.inr ⟨p.1, p.2, rfl⟩)
    simp only [noFaults] at this
    rw [this]
    cases rest with
    | nil => simp
    | cons q rest' =>
      rw [List.getLast?_cons_cons]
      cases hl : (q :: rest').getLast? with
      | none => simp at hl
      | some x => rfl

/-- On a collection of documents as `AddUser` stores them, `GetUsers` returns
the chat id of the last document and nothing else. -/
theorem GetUsers_userDocs (ids : List (Nat × Int)) (chapters : List Doc) (nextId : Nat) :
    GetUsers noFaults ⟨ids.map fun p => userDoc p.1 p.2, chapters, nextId⟩
      = Outcome.ok (match ids.getLast? with
          | none => []
          | some p => [p.2]) := by
  have hfind : find emptyElemFilter (ids.map fun p => userDoc p.1 p.2)
      = ids.map fun p => userDoc p.1 p.2 := by
    unfold find
    rw [List.filter_eq_self]
    intro d hd
    obtain ⟨p, _, rfl⟩ := List.mem_map.mp hd
    rfl
  have hloop := cursorLoop_userDocs ids 0 none (Or.inl rfl)
  simp only [GetUsers, hfind]
  rw [if_neg (by simp [noFaults])]
  simp only [noFaults] at hloop ⊢
  rw [hloop]
  cases ids.getLast? with
  | none => simp [collectChatIds]
  | some p => simp [collectChatIds, userDoc]

/-! ## Subscribers -/

/-- The `int64` successor: the mathematical one, except at the largest value. -/
theorem wrapInt64_succ (n : Int) (hn : isInt64 n) :
    wrapInt64 (n + 1) = if n = maxInt64 then minInt64 else n + 1 := by
  unfold isInt64 at hn
  unfold wrapInt64 maxInt64 minInt64
  split_ifs with h <;> omega

/-- When a document with the id is stored, `AddUser` returns nil and changes nothing. -/
theorem AddUser_of_present (f : Faults) (chatId : Int) (db : DB)
    (hf : f.findOne = false) (h : 0 < countChatId chatId db.users) :
    AddUser f chatId db = (Outcome.ok (), db) := by
  obtain ⟨d, hd, hp⟩ := List.countP_pos_iff.mp h
  cases hfind : List.find? (matchesFilter [("chat_id", BVal.int64 chatId)]) db.users with
  | none =>
    rw [List.find?_eq_none] at hfind
    exact absurd hp (hfind d hd)
  | some d' => simp [AddUser, hf, findOne, hfind, decodeMap]

/-- When no document with the id is stored, `AddUser` appends one. -/
theorem AddUser_of_absent (f : Faults) (chatId : Int) (db : DB)
    (hf : f.findOne = false) (hi : f.insertOne = false)
    (h : countChatId chatId db.users = 0) :
    AddUser f chatId db
      = (Outcome.ok (),
          ⟨db.users ++ [userDoc db.nextId chatId], db.chapters, db.nextId + 1⟩) := by
  have hfind : List.find? (matchesFilter [("chat_id", BVal.int64 chatId)]) db.users = none := by
    rw [List.find?_eq_none]
    simpa [countChatId, List.countP_eq_zero] using h
  simp [AddUser, hf, hi, findOne, hfind, insertOne, userDoc, List.lookup]

/-- A freshly stored subscriber document counts for its own id. -/
theorem countChatId_append_userDoc (chatId : Int) (oid : Nat) (coll : List Doc) :
    countChatId chatId (coll ++ [userDoc oid chatId]) = countChatId chatId coll + 1 := by
  have hm : matchesFilter [("chat_id", BVal.int64 chatId)] (userDoc oid chatId) = true := by
    rw [matchesFilter_int64]
    simp [userDoc, List.lookup, BVal.num?]
  simp [countChatId, List.countP_append, List.countP_cons, hm]

/-- Claim C2: for every chat id and every subscriber collection in which at most
one document has that id, when neither the lookup nor the insert fails, two
calls of `AddUser` in sequence both return nil, exactly one document with that
id is stored afterwards, and the second call leaves the database as the first
call left it. -/
theorem AddUser_twice_idempotent (f₁ f₂ : Faults) (chatId : Int) (db : DB)
    (h₁ : f₁.findOne = false ∧ f₁.insertOne = false)
    (h₂ : f₂.findOne = false ∧ f₂.insertOne = false)
    (hcount : countChatId chatId db.users ≤ 1) :
    (AddUser f₁ chatId db).1 = Outcome.ok ()
    ∧ (AddUser f₂ chatId (AddUser f₁ chatId db).2).1 = Outcome.ok ()
    ∧ countChatId chatId (AddUser f₂ chatId (AddUser f₁ chatId db).2).2.users = 1
    ∧ (AddUser f₂ chatId (AddUser f₁ chatId db).2).2 = (AddUser f₁ chatId db).2 := by
  rcases Nat.eq_zero_or_pos (countChatId chatId db.users) with h0 | hpos
  · have e₁ := AddUser_of_absent f₁ chatId db h₁.1 h₁.2 h0
    have hc : countChatId chatId (AddUser f₁ chatId db).2.users = 1 := by
      rw [e₁]; simp [countChatId_append_userDoc, h0]
    have e₂ := AddUser_of_present f₂ chatId (AddUser f₁ chatId db).2 h₂.1 (by rw [hc]; exact Nat.one_pos)
    rw [e₂]
    exact ⟨by rw [e₁], rfl, hc, rfl⟩
  · have e₁ := AddUser_of_present f₁ chatId db h₁.1 hpos
    have e₂ := AddUser_of_present f₂ chatId db h₂.1 hpos
    rw [e₁, e₂]
    exact ⟨rfl, rfl, le_antisymm hcount hpos, rfl⟩

/-- Claim C2 at the collection `[{chat_id: 8}]` and the id `7`. -/
theorem AddUser_twice_idempotent_witness :
    countChatId 7 [userDoc 0 8] ≤ 1
    ∧ countChatId 7
        (AddUser noFaults 7 (AddUser noFaults 7 ⟨[userDoc 0 8], [], 1⟩).2).2.users = 1 :=
  ⟨by decide,
   (AddUser_twice_idempotent noFaults noFaults 7 ⟨[userDoc 0 8], [], 1⟩
      ⟨rfl, rfl⟩ ⟨rfl, rfl⟩ (by decide)).2.2.1⟩

/-- The record read back after a matching update: the given url and the `int64`
sum `n + 1`. -/
theorem GetLatestChapter_after_update (f₁ f₂ : Faults) (n : Int) (a b : String)
    (oid : Nat) (db : DB) (hdb : db.chapters = [chapterDoc oid n a])
    (h₁ : f₁.updateOne = false) (h₂ : f₂.findOne = false) :
    GetLatestChapter f₂ (UpdateLatestChapter f₁ n b db).2
      = Outcome.ok ⟨wrapInt64 (n + 1), b⟩ := by
  have hm : matchesFilter [("chapter_number", BVal.int64 n)] (chapterDoc oid n a) = true := by
    rw [matchesFilter_int64]
    simp [chapterDoc, List.lookup, BVal.num?]
  have k₁ : keyNames "chapter_number" "_id" = false := by decide
  have k₂ : keyNames "latest_url" "_id" = false := by decide
  have k₃ : keyNames "chapter_number" "chapter_number" = true := by decide
  have k₄ : keyNames "chapter_number" "latest_url" = false := by decide
  have k₅ : keyNames "latest_url" "latest_url" = true := by decide
  simp [UpdateLatestChapter, h₁, GetLatestChapter, h₂, hdb, updateOne, hm, findOne,
    emptyElemFilter, matchesFilter, fieldMatches, chapterDoc, setFields, setField,
    List.lookup, decodeChapter, decodeInt64, decodeString, valueEq, BVal.num?,
    k₁, k₂, k₃, k₄, k₅]

/-- Claim C4, amended: for every `int64` `n` other than the largest one and all
strings `a`, `b`, when `chapters` holds exactly the document
`{chapter_number: n, latest_url: a}` and no request fails,
`UpdateLatestChapter n b` returns nil and the following `GetLatestChapter`
returns the record `{n + 1, b}` without error. -/
theorem UpdateLatestChapter_then_GetLatestChapter (f₁ f₂ : Faults) (n : Int) (a b : String)
    (oid : Nat) (db : DB) (hn : isInt64 n) (hmax : n ≠ maxInt64)
    (hdb : db.chapters = [chapterDoc oid n a])
    (h₁ : f₁.updateOne = false) (h₂ : f₂.findOne = false) :
    (UpdateLatestChapter f₁ n b db).1 = Outcome.ok ()
    ∧ GetLatestChapter f₂ (UpdateLatestChapter f₁ n b db).2 = Outcome.ok ⟨n + 1, b⟩ := by
  refine ⟨by simp [UpdateLatestChapter, h₁], ?_⟩
  rw [GetLatestChapter_after_update f₁ f₂ n a b oid db hdb h₁ h₂, wrapInt64_succ n hn,
    if_neg hmax]

/-- Claim C4, amended, at `{chapter_number: 5, latest_url: "a"}` and the call
with `5`, `"b"`: the record read back is `{6, "b"}`. -/
theorem UpdateLatestChapter_then_GetLatestChapter_witness :
    isInt64 5 ∧ (5 : Int) ≠ maxInt64
    ∧ (UpdateLatestChapter noFaults 5 "b" ⟨[], [chapterDoc 0 5 "a"], 1⟩).1 = Outcome.ok ()
    ∧ GetLatestChapter noFaults
        (UpdateLatestChapter noFaults 5 "b" ⟨[], [chapterDoc 0 5 "a"], 1⟩).2
        = Outcome.ok ⟨5 + 1, "b"⟩ :=
  ⟨by decide, by decide,
   UpdateLatestChapter_then_GetLatestChapter noFaults noFaults 5 "a" "b" 0
      ⟨[], [chapterDoc 0 5 "a"], 1⟩ (by decide) (by decide) rfl rfl rfl⟩

/-- Claim C10: for every chat id and every subscriber collection, when the delete
request does not fail, `RemoveUser` returns nil and removes exactly `min 1 k`
documents, `k` the number of documents with that id: the collection gets
shorter by `min 1 k`, the number of documents with the id drops by `min 1 k`,
every other document keeps its multiplicity and the order is kept, `chapters`
is unchanged; with `k = 0` the database is unchanged. -/
theorem RemoveUser_removes_at_most_one (f : Faults) (chatId : Int) (db : DB)
    (hf : f.deleteOne = false) :
    (RemoveUser f chatId db).1 = Outcome.ok ()
    ∧ (RemoveUser f chatId db).2.users.length + min 1 (countChatId chatId db.users)
        = db.users.length
    ∧ countChatId chatId (RemoveUser f chatId db).2.users
        = countChatId chatId db.users - min 1 (countChatId chatId db.users)
    ∧ (∀ d : Doc, matchesFilter [("chat_id", BVal.int64 chatId)] d = false →
        (RemoveUser f chatId db).2.users.count d = db.users.count d)
    ∧ List.Sublist (RemoveUser f chatId db).2.users db.users
    ∧ (RemoveUser f chatId db).2.chapters = db.chapters
    ∧ (countChatId chatId db.users = 0 → (RemoveUser f chatId db).2 = db) := by
  simp only [RemoveUser, hf, Bool.false_eq_true, if_false, deleteOne, countChatId]
  refine ⟨trivial, length_eraseP_add _ _, countP_eraseP_self _ _,
    fun d hd => count_eraseP_of_not _ _ d hd, List.eraseP_sublist _, trivial, ?_⟩
  intro h0
  have hnone : ∀ d ∈ db.users, ¬ matchesFilter [("chat_id", BVal.int64 chatId)] d = true := by
    simpa [List.countP_eq_zero] using h0
  rw [List.eraseP_of_forall_not hnone]

/-- Claim C10 at the collection `[{chat_id: 7}, {chat_id: 8}]` and the id `7`. -/
theorem RemoveUser_removes_at_most_one_witness :
    (RemoveUser noFaults 7 ⟨[userDoc 0 7, userDoc 1 8], [], 2⟩).1 = Outcome.ok ()
    ∧ (RemoveUser noFaults 7 ⟨[userDoc 0 7, userDoc 1 8], [], 2⟩).2.users.length
        + min 1 (countChatId 7 [userDoc 0 7, userDoc 1 8]) = 2 :=
  have h := RemoveUser_removes_at_most_one noFaults 7 ⟨[userDoc 0 7, userDoc 1 8], [], 2⟩ rfl
  ⟨h.1, h.2.1⟩

/-- Claim C9: for every `n`, every url and every `chapters` collection holding one
record whose `chapter_number` is not `n`, when the update request does not
fail, `UpdateLatestChapter n url` returns nil and leaves the database, hence
both fields of the stored record, unchanged. -/
theorem UpdateLatestChapter_mismatch_is_noop (f : Faults) (n : Int) (url : String) (db : DB)
    (d : Doc) (hf : f.updateOne = false) (hdb : db.chapters = [d])
    (hne : storedChapterNumber db ≠ some n) :
    (UpdateLatestChapter f n url db).1 = Outcome.ok ()
    ∧ (UpdateLatestChapter f n url db).2 = db := by
  have hm : matchesFilter [("chapter_number", BVal.int64 n)] d = false := by
    rw [Bool.eq_false_iff]
    intro h
    rw [matchesFilter_int64] at h
    apply hne
    simp [storedChapterNumber, hdb, h]
  obtain ⟨users, chapters, nextId⟩ := db
  simp only at hdb
  subst hdb
  simp [UpdateLatestChapter, hf, updateOne, hm]

/-- Claim C9 at the stored number `5` and the call with `99`, `"x"`. -/
theorem UpdateLatestChapter_mismatch_is_noop_witness :
    storedChapterNumber ⟨[], [chapterDoc 0 5 "a"], 1⟩ ≠ some 99
    ∧ (UpdateLatestChapter noFaults 99 "x" ⟨[], [chapterDoc 0 5 "a"], 1⟩).1 = Outcome.ok ()
    ∧ (UpdateLatestChapter noFaults 99 "x" ⟨[], [chapterDoc 0 5 "a"], 1⟩).2
        = ⟨[], [chapterDoc 0 5 "a"], 1⟩ :=
  ⟨by decide,
   UpdateLatestChapter_mismatch_is_noop noFaults 99 "x" ⟨[], [chapterDoc 0 5 "a"], 1⟩
     (chapterDoc 0 5 "a") rfl rfl (by decide)⟩

/-! ## Chapters -/

/-- After the `$set` of `UpdateLatestChapter` the field `chapter_number` holds the new number. -/
theorem lookup_chapter_number_setFields (m : Int) (url : String) (d : Doc) :
    (setFields [("chapter_number", BVal.int64 m), ("latest_url", BVal.str url)] d).lookup
      "chapter_number" = some (BVal.int64 m) := by
  simp only [setFields, List.foldl]
  rw [lookup_setField_ne _ _ _ _ (by decide), lookup_setField_same]

/-- The first document's number after `UpdateLatestChapter n url`: not lower than
before, unless the call is made with the largest `int64` on a stored largest
`int64`. -/
theorem storedChapterNumber_UpdateLatestChapter (f : Faults) (n : Int) (url : String) (db : DB)
    (c : Int) (hn : isInt64 n) (hmax : n = maxInt64 → c ≠ maxInt64)
    (hc : storedChapterNumber db = some c) :
    ∃ c', storedChapterNumber (UpdateLatestChapter f n url db).2 = some c' ∧ c ≤ c' := by
  obtain ⟨users, chapters, nextId⟩ := db
  cases hf : f.updateOne with
  | true => exact ⟨c, by simpa [UpdateLatestChapter, hf] using hc, le_refl c⟩
  | false =>
    cases chapters with
    | nil => simp [storedChapterNumber] at hc
    | cons d rest =>
      cases hm : matchesFilter [("chapter_number", BVal.int64 n)] d with
      | false =>
        exact ⟨c, by simpa [UpdateLatestChapter, hf, updateOne, hm, storedChapterNumber] using hc,
          le_refl c⟩
      | true =>
        have hd := (matchesFilter_int64 _ _ _).mp hm
        have hcn : c = n := by
          simp only [storedChapterNumber] at hc
          rw [hd] at hc
          exact (Option.some.inj hc).symm
        have hne : n ≠ maxInt64 := fun e => hmax e (hcn.trans e)
        have hw : wrapInt64 (n + 1) = n + 1 := by
          rw [wrapInt64_succ n hn, if_neg hne]
        refine ⟨n + 1, ?_, by omega⟩
        simp [UpdateLatestChapter, hf, updateOne, hm, storedChapterNumber,
          lookup_chapter_number_setFields, BVal.num?, hw]

/-- Claim C5, amended: for every database whose first chapter record has the
number `c`, every fault plan and every call of an operation with `int64`
arguments, other than `UpdateLatestChapter` with the largest `int64` on a
stored largest `int64`, the number stored after the call is at least `c`; and
a call of any operation but `UpdateLatestChapter` leaves `chapters` as it
was. -/
theorem chapter_number_never_lowered (f : Faults) (op : Op) (db : DB) (c : Int)
    (hwf : op.wellFormed) (hc : storedChapterNumber db = some c)
    (hmax : ∀ url, op = Op.updateLatestChapter maxInt64 url → c ≠ maxInt64) :
    (∃ c', storedChapterNumber (op.run f db) = some c' ∧ c ≤ c')
    ∧ ((∀ n url, op ≠ Op.updateLatestChapter n url) →
        (op.run f db).chapters = db.chapters) := by
  cases op with
  | getUsers => exact ⟨⟨c, hc, le_refl c⟩, fun _ => rfl⟩
  | getLatestChapter => exact ⟨⟨c, hc, le_refl c⟩, fun _ => rfl⟩
  | addUser chatId =>
    have hch : (AddUser f chatId db).2.chapters = db.chapters := by
      simp only [AddUser]; split_ifs <;> rfl
    refine ⟨⟨c, ?_, le_refl c⟩, fun _ => hch⟩
    simp only [Op.run, storedChapterNumber, hch]
    exact hc
  | removeUser chatId =>
    have hch : (RemoveUser f chatId db).2.chapters = db.chapters := by
      simp only [RemoveUser]; split_ifs <;> rfl
    refine ⟨⟨c, ?_, le_refl c⟩, fun _ => hch⟩
    simp only [Op.run, storedChapterNumber, hch]
    exact hc
  | updateLatestChapter n url =>
    have hn : n = maxInt64 → c ≠ maxInt64 := fun e => hmax url (by rw [e])
    exact ⟨storedChapterNumber_UpdateLatestChapter f n url db c hwf hn hc,
      fun h => absurd rfl (h n url)⟩

/-- Claim C5, amended, at the stored number `5` and the call
`UpdateLatestChapter 5 "b"`. -/
theorem chapter_number_never_lowered_witness :
    (Op.updateLatestChapter 5 "b").wellFormed
    ∧ storedChapterNumber ⟨[], [chapterDoc 0 5 "a"], 1⟩ = some 5
    ∧ ∃ c', storedChapterNumber
        ((Op.updateLatestChapter 5 "b").run noFaults ⟨[], [chapterDoc 0 5 "a"], 1⟩) = some c'
        ∧ 5 ≤ c' :=
  ⟨by decide, rfl,
   (chapter_number_never_lowered noFaults (Op.updateLatestChapter 5 "b")
      ⟨[], [chapterDoc 0 5 "a"], 1⟩ 5 (by decide) rfl
      (fun _ _ => by decide)).1⟩

/-- An object id stored as `latest_url` is read back as its hexadecimal text. -/
theorem GetLatestChapter_objectID_url :
    GetLatestChapter noFaults
      ⟨[], [[("_id", BVal.objectID 0), ("chapter_number", BVal.int64 5),
             ("latest_url", BVal.objectID 1)]], 1⟩
      = Outcome.ok ⟨5, "000000000000000000000001"⟩ := by
  rfl

/-- A key that names a field only in lower case fills that field. -/
theorem GetLatestChapter_capitalised_key :
    GetLatestChapter noFaults
      ⟨[], [[("_id", BVal.objectID 0), ("Chapter_Number", BVal.int64 9),
             ("latest_url", BVal.str "a")]], 1⟩
      = Outcome.ok ⟨9, "a"⟩ := by
  rfl

/-- A string stored as `chapter_number` is a decode error, reported as
`ErrorMongoFindOne`. -/
theorem GetLatestChapter_string_number :
    GetLatestChapter noFaults
      ⟨[], [[("_id", BVal.objectID 0), ("chapter_number", BVal.str "5"),
             ("latest_url", BVal.str "a")]], 1⟩
      = Outcome.error Err.ErrorMongoFindOne := by
  rfl

/-- Claim C7, amended: on a `chapters` collection whose documents have no field
with the empty name, `GetLatestChapter` returns the not-found error exactly
when the lookup completes and the collection is empty; that error differs
from `ErrorMongoFindOne`; a failed lookup and a first document that does not
decode return `ErrorMongoFindOne`; and a first document that decodes is
returned with a nil error, a first document `{chapter_number: n, latest_url: a}`
as the record `{n, a}`.  The call never panics. -/
theorem GetLatestChapter_outcomes (f : Faults) (db : DB)
    (hkeys : ∀ d ∈ db.chapters, d.lookup "" = none) :
    (GetLatestChapter f db = Outcome.error Err.NoLatestChapter ↔
        f.findOne = false ∧ db.chapters = [])
    ∧ Err.NoLatestChapter ≠ Err.ErrorMongoFindOne
    ∧ (f.findOne = true → GetLatestChapter f db = Outcome.error Err.ErrorMongoFindOne)
    ∧ (∀ d rest, f.findOne = false → db.chapters = d :: rest →
        decodeChapter d ⟨0, ""⟩ = none →
        GetLatestChapter f db = Outcome.error Err.ErrorMongoFindOne)
    ∧ (∀ d rest chapter, f.findOne = false → db.chapters = d :: rest →
        decodeChapter d ⟨0, ""⟩ = some chapter →
        GetLatestChapter f db = Outcome.ok chapter)
    ∧ (∀ oid n a rest, f.findOne = false → db.chapters = chapterDoc oid n a :: rest →
        GetLatestChapter f db = Outcome.ok ⟨n, a⟩)
    ∧ GetLatestChapter f db ≠ Outcome.panic := by
  have hall : ∀ d ∈ db.chapters, matchesFilter emptyElemFilter d = true := by
    intro d hd
    simp [matchesFilter, emptyElemFilter, fieldMatches, hkeys d hd]
  have hcons : ∀ d rest, f.findOne = false → db.chapters = d :: rest →
      GetLatestChapter f db =
        match decodeChapter d ⟨0, ""⟩ with
        | none => Outcome.error Err.ErrorMongoFindOne
        | some chapter => Outcome.ok chapter := by
    intro d rest hf hdb
    have hd := hall d (by rw [hdb]; exact List.mem_cons_self _ _)
    simp [GetLatestChapter, hf, findOne, hdb, List.find?_cons, hd]
  have hshape : ∀ oid n a, decodeChapter (chapterDoc oid n a) ⟨0, ""⟩ = some ⟨n, a⟩ := by
    intro oid n a
    have k₁ : keyNames "chapter_number" "_id" = false := by decide
    have k₂ : keyNames "latest_url" "_id" = false := by decide
    have k₃ : keyNames "chapter_number" "chapter_number" = true := by decide
    have k₄ : keyNames "chapter_number" "latest_url" = false := by decide
    have k₅ : keyNames "latest_url" "latest_url" = true := by decide
    simp [chapterDoc, decodeChapter, decodeInt64, decodeString, k₁, k₂, k₃, k₄, k₅]
  refine ⟨?_, by decide, ?_, ?_, ?_, ?_, ?_⟩
  · cases hf : f.findOne with
    | true => simp [GetLatestChapter, hf]
    | false =>
      cases hdb : db.chapters with
      | nil => simp [GetLatestChapter, hf, findOne, hdb]
      | cons d rest =>
        rw [hcons d rest hf hdb]
        cases decodeChapter d ⟨0, ""⟩ <;> simp
  · intro hf; simp [GetLatestChapter, hf]
  · intro d rest hf hdb hdec; rw [hcons d rest hf hdb, hdec]
  · intro d rest chapter hf hdb hdec; rw [hcons d rest hf hdb, hdec]
  · intro oid n a rest hf hdb; rw [hcons _ rest hf hdb, hshape]
  · cases hf : f.findOne with
    | true => simp [GetLatestChapter, hf]
    | false =>
      cases hdb : db.chapters with
      | nil => simp [GetLatestChapter, hf, findOne, hdb]
      | cons d rest =>
        rw [hcons d rest hf hdb]
        cases decodeChapter d ⟨0, ""⟩ <;> simp

/-- Claim C7, amended, at the collection `[{chapter_number: 5, latest_url: "a"}]`. -/
theorem GetLatestChapter_outcomes_witness :
    (chapterDoc 0 5 "a").lookup "" = none
    ∧ GetLatestChapter noFaults ⟨[], [chapterDoc 0 5 "a"], 1⟩ = Outcome.ok ⟨5, "a"⟩
    ∧ GetLatestChapter noFaults ⟨[], [chapterDoc 0 5 "a"], 1⟩ ≠ Outcome.panic :=
  have h := GetLatestChapter_outcomes noFaults ⟨[], [chapterDoc 0 5 "a"], 1⟩
    (by intro d hd; simp at hd; subst hd; rfl)
  ⟨rfl, h.2.2.2.2.1 (chapterDoc 0 5 "a") [] ⟨5, "a"⟩ rfl rfl rfl, h.2.2.2.2.2.2⟩

/-! ## Error propagation -/

/-- Every request whose error `db.go` checks: its failure comes back as the
error of its kind, and the stored data is as before the call. -/
theorem checked_requests_propagate (f : Faults) (db : DB) (chatId n : Int) (url : String) :
    (f.connect = true → InitDatabase f = Outcome.error Err.ErrorDatabaseConnection)
    ∧ (f.connect = false → f.ping = true →
        InitDatabase f = Outcome.error Err.ErrorDatabasePing)
    ∧ (f.find = true → GetUsers f db = Outcome.error Err.ErrorMongoFind)
    ∧ (f.insertOne = true → (f.findOne = true ∨ countChatId chatId db.users = 0) →
        AddUser f chatId db = (Outcome.error Err.ErrorMongoInsertOne, db))
    ∧ (f.deleteOne = true →
        RemoveUser f chatId db = (Outcome.error Err.ErrorMongoDeleteOne, db))
    ∧ (f.findOne = true → GetLatestChapter f db = Outcome.error Err.ErrorMongoFindOne)
    ∧ (f.updateOne = true →
        UpdateLatestChapter f n url db = (Outcome.error Err.ErrorMongoUpdateOne, db)) := by
  refine ⟨?_, ?_, ?_, ?_, ?_, ?_, ?_⟩
  · intro h; simp [InitDatabase, h]
  · intro h₁ h₂; simp [InitDatabase, h₁, h₂]
  · intro h; simp [GetUsers, h]
  · intro h hreq
    rcases hreq with hfo | h0
    · simp [AddUser, h, hfo]
    · have hfind :
          List.find? (matchesFilter [("chat_id", BVal.int64 chatId)]) db.users = none := by
        rw [List.find?_eq_none]
        simpa [countChatId, List.countP_eq_zero] using h0
      cases hfo : f.findOne <;> simp [AddUser, h, hfo, findOne, hfind]
  · intro h; simp [RemoveUser, h]
  · intro h; simp [GetLatestChapter, h]
  · intro h; simp [UpdateLatestChapter, h]

/-! ## Behaviour at particular states -/

/-- Claim C1 fails on the code: on the collection `[{chat_id: 1}, {chat_id: 2}]`,
with no failing request, `GetUsers` returns `[2]` with a nil error, which is
not a permutation of the stored ids `1, 2` and is shorter than the
collection. -/
theorem GetUsers_returns_only_last_subscriber :
    GetUsers noFaults ⟨[userDoc 0 1, userDoc 1 2], [], 2⟩ = Outcome.ok [2]
    ∧ ¬ List.Perm [2] [(1 : Int), 2]
    ∧ ([2] : List Int).length ≠ ([userDoc 0 1, userDoc 1 2] : List Doc).length := by
  refine ⟨by rfl, ?_, by decide⟩
  intro h
  have := h.length_eq
  simp at this

/-- Claim C3 fails on the code: on the collection `[{chat_id: 7}, {chat_id: 8}]`,
where each id occurs once, `AddUser 7` returns nil and the following
`GetUsers` returns `[8]`, which does not contain `7`.  After the subsequent
`RemoveUser 7` the list is `[8]` again. -/
theorem AddUser_then_GetUsers_misses_subscriber :
    countChatId 7 [userDoc 0 7, userDoc 1 8] ≤ 1
    ∧ countChatId 8 [userDoc 0 7, userDoc 1 8] ≤ 1
    ∧ (AddUser noFaults 7 ⟨[userDoc 0 7, userDoc 1 8], [], 2⟩).1 = Outcome.ok ()
    ∧ GetUsers noFaults (AddUser noFaults 7 ⟨[userDoc 0 7, userDoc 1 8], [], 2⟩).2
        = Outcome.ok [8]
    ∧ (7 : Int) ∉ [(8 : Int)]
    ∧ GetUsers noFaults
        (RemoveUser noFaults 7 (AddUser noFaults 7 ⟨[userDoc 0 7, userDoc 1 8], [], 2⟩).2).2
        = Outcome.ok [8] := by
  refine ⟨by decide, by decide, by rfl, by rfl, by decide, by rfl⟩

/-- Claim C8 fails on the code: on a collection whose only document has a string
(or a 32-bit integer) as `chat_id`, `GetUsers` panics at the type assertion
instead of returning `ErrorMongoCursor`; when such a document is followed by
a well-typed one, `GetUsers` returns that one's id with a nil error. -/
theorem GetUsers_panics_on_non_int64_chat_id :
    GetUsers noFaults ⟨[[("_id", BVal.objectID 0), ("chat_id", BVal.str "abc")]], [], 1⟩
      = Outcome.panic
    ∧ GetUsers noFaults ⟨[[("_id", BVal.objectID 0), ("chat_id", BVal.int32 7)]], [], 1⟩
      = Outcome.panic
    ∧ GetUsers noFaults
        ⟨[[("_id", BVal.objectID 0), ("chat_id", BVal.str "abc")], userDoc 1 8], [], 2⟩
      = Outcome.ok [8] := by
  refine ⟨by rfl, by rfl, by rfl⟩

/-- Claim C6 fails on the code: when the lookup of `AddUser 7` fails on the
collection `[{chat_id: 7}]` and the insert succeeds, `AddUser` returns nil
and has stored a second document with the id `7`. -/
theorem AddUser_swallows_failed_lookup :
    ({ noFaults with findOne := true } : Faults).any = true
    ∧ AddUser { noFaults with findOne := true } 7 ⟨[userDoc 0 7], [], 1⟩
      = (Outcome.ok (), ⟨[userDoc 0 7, userDoc 1 7], [], 2⟩)
    ∧ countChatId 7 [userDoc 0 7, userDoc 1 7] = 2 := by
  refine ⟨by rfl, by rfl, by decide⟩

/-- Claim C4 fails as stated: at `n = 2^63 - 1`, an `int64`, with `chapters`
holding exactly `{chapter_number: n, latest_url: "a"}` and no failing request,
`UpdateLatestChapter n "b"` returns nil and `GetLatestChapter` then returns
`{-2^63, "b"}`, not `{n + 1, "b"}`. -/
theorem UpdateLatestChapter_then_GetLatestChapter_wraps :
    isInt64 maxInt64
    ∧ (UpdateLatestChapter noFaults maxInt64 "b" ⟨[], [chapterDoc 0 maxInt64 "a"], 1⟩).1
        = Outcome.ok ()
    ∧ GetLatestChapter noFaults
        (UpdateLatestChapter noFaults maxInt64 "b" ⟨[], [chapterDoc 0 maxInt64 "a"], 1⟩).2
        = Outcome.ok ⟨minInt64, "b"⟩
    ∧ GetLatestChapter noFaults
        (UpdateLatestChapter noFaults maxInt64 "b" ⟨[], [chapterDoc 0 maxInt64 "a"], 1⟩).2
        ≠ Outcome.ok ⟨maxInt64 + 1, "b"⟩ := by
  refine ⟨by decide, by rfl, by rfl, by decide⟩

/-- Claim C7 fails as stated: the filter `bson.D{{}}` is the one-element document
with the key `""` and the value nil, which selects the documents whose field
`""` is null or missing.  On the non-empty collection holding only a document
with the field `"": 1` the lookup completes and `GetLatestChapter` returns the
not-found error; with a second document behind it, the second one is
returned, not the first. -/
theorem GetLatestChapter_skips_empty_named_field :
    (⟨[], [emptyNamedDoc], 1⟩ : DB).chapters ≠ []
    ∧ noFaults.findOne = false
    ∧ GetLatestChapter noFaults ⟨[], [emptyNamedDoc], 1⟩
        = Outcome.error Err.NoLatestChapter
    ∧ decodeChapter emptyNamedDoc ⟨0, ""⟩ = some ⟨5, "a"⟩
    ∧ GetLatestChapter noFaults ⟨[], [emptyNamedDoc, chapterDoc 1 6 "b"], 2⟩
        = Outcome.ok ⟨6, "b"⟩ := by
  refine ⟨by decide, by rfl, by rfl, by rfl, by rfl⟩

/-- Claim C5 fails as stated: on the stored number `2^63 - 1`, the well-formed
call `UpdateLatestChapter (2^63 - 1) "b"` with no failing request stores
`-2^63`, which is lower. -/
theorem UpdateLatestChapter_wraps_at_maxInt64 :
    (Op.updateLatestChapter maxInt64 "b").wellFormed
    ∧ storedChapterNumber ⟨[], [chapterDoc 0 maxInt64 "a"], 1⟩ = some maxInt64
    ∧ storedChapterNumber
        (Op.run noFaults ⟨[], [chapterDoc 0 maxInt64 "a"], 1⟩
          (Op.updateLatestChapter maxInt64 "b")) = some minInt64
    ∧ ¬ (maxInt64 ≤ minInt64) := by
  refine ⟨by decide, by rfl, by rfl, by decide⟩

end OpBot
